import Mathlib

/-
  Shallow embedding of the tool-invocation and orchestration core of the
  LUXORANOVA9/prototype repository, and proofs about it.

  The embedded code lives in:
    - src/services/memoryService.ts  (memory store: eviction, cosine
      similarity, add, search, pin, clear)
    - src/services/geminiService.ts  (withRetry, runOverseerAgent loop,
      parallel_dispatch fan-out)
    - src/services/mcpClient.ts      (connection router: callTool)
    - src/services/mcpRouter.ts      (credential profiles)

  Conventions of the embedding:
    - JavaScript numbers that hold embedding coordinates and similarity
      scores are modelled as real numbers; timestamps (Date.now()) as Nat.
    - `Array.prototype.sort` with comparator `(a, b) => k(b) - k(a)` sorts
      descending by `k` and is stable; it is modelled by `List.mergeSort`
      with the boolean relation `k b ≤ k a`.
    - `Math.max(0, x - y)` on non-negative integers is Nat subtraction.
    - An async function that can throw is modelled with `Except`;
      a caught exception is a value of the error branch, never a Lean
      exception, which mirrors the try/catch boundaries of the source.
-/

namespace Prototype

/-! ### Memory store: src/services/memoryService.ts -/

/-- Structure `MemoryNode` from src/types.ts (embedding coordinates and the transient
relevance score as real numbers, `timestamp` in milliseconds as `Nat`). -/
structure MemoryNode where
  id : String
  content : String
  embedding : List ℝ
  timestamp : Nat
  type : String
  tags : List String
  relevance : ℝ
  isPinned : Bool

/-- Constant `MAX_MEMORIES = 200` from memoryService.ts. -/
def MAX_MEMORIES : Nat := 200

/-- The comparator `(a, b) => b.timestamp - a.timestamp`: newest first. -/
def byTimestampDesc (a b : MemoryNode) : Bool := decide (b.timestamp ≤ a.timestamp)

/-- The eviction step inside `saveMemories` (memoryService.ts lines 29-54):
once the count exceeds `MAX_MEMORIES`, keep every pinned node, sort the
unpinned nodes newest-first, truncate them to `max(0, MAX_MEMORIES - pinned.length)`
(Nat subtraction), recombine and sort the result newest-first. -/
def saveMemories (memories : List MemoryNode) : List MemoryNode :=
  if MAX_MEMORIES < memories.length then
    let pinned := memories.filter (fun m => m.isPinned)
    let unpinned := memories.filter (fun m => !m.isPinned)
    let unpinnedSorted := unpinned.mergeSort byTimestampDesc
    let spaceForUnpinned := MAX_MEMORIES - pinned.length
    let unpinnedKept := unpinnedSorted.take spaceForUnpinned
    (pinned ++ unpinnedKept).mergeSort byTimestampDesc
  else memories

/-- Function `cosineSimilarity` (memoryService.ts lines 59-71): zero on dimension
mismatch, zero when the product of the magnitudes is zero, otherwise the
normalized dot product.  The single accumulation loop of the source is the
sum of the pointwise products / squares. -/
noncomputable def cosineSimilarity (vecA vecB : List ℝ) : ℝ :=
  if vecA.length ≠ vecB.length then 0
  else
    let dotProduct := (List.zipWith (fun a b => a * b) vecA vecB).sum
    let magA := (vecA.map (fun x => x * x)).sum
    let magB := (vecB.map (fun x => x * x)).sum
    let magnitude := Real.sqrt magA * Real.sqrt magB
    if magnitude = 0 then 0 else dotProduct / magnitude

/-- Outcome of `getEmbedding` (geminiService.ts lines 51-63) as seen by its
callers: it may throw, resolve to `null`, or resolve to a vector. -/
abbrev EmbedOutcome := Except String (Option (List ℝ))

/-- Function `addMemory` (memoryService.ts lines 77-100).  The generated id and
`Date.now()` timestamp are passed explicitly.  A thrown or null embedding
yields `none` and leaves the collection unchanged; on success the node is
prepended and `saveMemories` runs. -/
def addMemory (embedOutcome : EmbedOutcome) (newId : String) (now : Nat)
    (memories : List MemoryNode) (content : String) (type : String)
    (tags : List String) : Option MemoryNode × List MemoryNode :=
  match embedOutcome with
  | .error _ => (none, memories)
  | .ok none => (none, memories)
  | .ok (some embedding) =>
      let newNode : MemoryNode :=
        { id := newId, content := content, embedding := embedding,
          timestamp := now, type := type, tags := tags,
          relevance := 0, isPinned := false }
      (some newNode, saveMemories (newNode :: memories))

/-- Function `getPinned` (memoryService.ts lines 113-115). -/
def getPinned (memories : List MemoryNode) : List MemoryNode :=
  memories.filter (fun m => m.isPinned)

/-- The comparator `(a, b) => b.relevance - a.relevance`: highest first. -/
noncomputable def byRelevanceDesc (a b : MemoryNode) : Bool :=
  decide (b.relevance ≤ a.relevance)

/-- Function `search` (memoryService.ts lines 121-144): empty store returns `[]`;
a thrown or null query embedding returns `[]`; otherwise every stored node
is re-scored with its cosine similarity to the query embedding, filtered to
`relevance ≥ minSimilarity`, sorted descending by relevance and truncated
to the first `limit`. -/
noncomputable def search (embedOutcome : EmbedOutcome)
    (memories : List MemoryNode) (limit : Nat) (minSimilarity : ℝ) :
    List MemoryNode :=
  if memories.length = 0 then []
  else
    match embedOutcome with
    | .error _ => []
    | .ok none => []
    | .ok (some queryEmbedding) =>
        let scored := memories.map (fun mem =>
          { mem with relevance := cosineSimilarity queryEmbedding mem.embedding })
        ((scored.filter (fun mem => decide (minSimilarity ≤ mem.relevance))).mergeSort
            byRelevanceDesc).take limit

/-- Function `deleteMemory` (memoryService.ts lines 152-155). -/
def deleteMemory (memories : List MemoryNode) (id : String) : List MemoryNode :=
  memories.filter (fun m => m.id ≠ id)

/-- Function `clear` (memoryService.ts lines 157-162): full wipe, `this.memories = []`. -/
def clear (_memories : List MemoryNode) : List MemoryNode := []

/-! ### Retry wrapper: src/services/geminiService.ts lines 13-38 -/

/-- The error value `withRetry` inspects: an optional `message` and an
optional `status` field (`error.message?` / `error.status`). -/
structure ApiError where
  message : Option String
  status : Option String

/-- Helper for `strIncludes`: the needle is a prefix of the haystack or of
one of its proper suffixes. -/
def includesGo (needle : List Char) : List Char → Bool
  | [] => needle.isEmpty
  | c :: cs => needle.isPrefixOf (c :: cs) || includesGo needle cs

/-- JavaScript substring test `haystack.includes(needle)`, on the character
sequences of the two strings. -/
def strIncludes (haystack needle : String) : Bool :=
  includesGo needle.toList haystack.toList

/-- JavaScript `s.toLowerCase()`: lower-case character by character. -/
def strToLower (s : String) : String := String.mk (s.toList.map Char.toLower)

/-- The rate-limit classification of geminiService.ts lines 19-23:
lower-cased message contains "429", "quota" or "resource_exhausted",
or `error.status === 'RESOURCE_EXHAUSTED'`. -/
def isRateLimit (error : ApiError) : Bool :=
  let errorMsg := (error.message.map strToLower).getD ""
  strIncludes errorMsg "429" ||
  strIncludes errorMsg "quota" ||
  strIncludes errorMsg "resource_exhausted" ||
  error.status == some "RESOURCE_EXHAUSTED"

/-- The `while (true)` loop of `withRetry`, with the result of the i-th call
of `fn` given by `fn i`.  Returns the final outcome together with the total
number of attempts made.  On failure the loop retries (after a backoff delay,
irrelevant to the value computed) exactly when the error is a rate-limit
error and `retries < maxRetries`; any other error is rethrown at once. -/
def withRetryGo (fn : Nat → Except ApiError α) (maxRetries : Nat)
    (retries : Nat) : Except ApiError α × Nat :=
  match fn retries with
  | .ok v => (.ok v, 1)
  | .error e =>
      if h : isRateLimit e = true ∧ retries < maxRetries then
        let rest := withRetryGo fn maxRetries (retries + 1)
        (rest.1, rest.2 + 1)
      else
        (.error e, 1)
termination_by maxRetries - retries
decreasing_by omega

/-- Function `withRetry(fn)` with the default `maxRetries = 4`. -/
def withRetry (fn : Nat → Except ApiError α) : Except ApiError α × Nat :=
  withRetryGo fn 4 0

/-! ### Orchestration loop: src/services/geminiService.ts lines 97-272 -/

/-- One requested function call in a provider response. -/
structure FunctionCall where
  name : String
  args : String
  id : String

/-- One entry of the `functionResponses` batch sent back to the provider. -/
structure FunctionResponseMsg where
  name : String
  response : String
  id : String

/-- A provider response: the requested tool calls and the response text. -/
structure AgentResponse where
  functionCalls : List FunctionCall
  text : String

/-- The tool-calling loop of `runOverseerAgent` (lines 143-261); `handleCall`
abstracts the per-call executor inside `Promise.all` (the joined batch is
their results in order), `send` abstracts `chat.sendMessage` on a batch of
function responses.  The loop body runs while the response requests calls
and `turns < 6`; each iteration submits the whole joined batch and
increments `turns`. -/
def overseerLoop (send : List FunctionResponseMsg → AgentResponse)
    (handleCall : FunctionCall → FunctionResponseMsg)
    (response : AgentResponse) (turns : Nat) : AgentResponse × Nat :=
  if h : 0 < response.functionCalls.length ∧ turns < 6 then
    let functionResponses := response.functionCalls.map handleCall
    overseerLoop send handleCall (send functionResponses) (turns + 1)
  else
    (response, turns)
termination_by 6 - turns
decreasing_by omega

/-- The provider response reached after `n` loop iterations: `respAt 0` is
the response to the initial `sendMessage`, and each following one answers
the joined batch of function responses of its predecessor. -/
def respAt (send : List FunctionResponseMsg → AgentResponse)
    (handleCall : FunctionCall → FunctionResponseMsg)
    (r0 : AgentResponse) : Nat → AgentResponse
  | 0 => r0
  | n + 1 => send ((respAt send handleCall r0 n).functionCalls.map handleCall)

/-! ### Parallel fan-out: src/services/geminiService.ts lines 171-222 -/

/-- One sub-dispatch of a `parallel_dispatch` call: `{agent, prompt}`. -/
structure Dispatch where
  agent : String
  prompt : String

/-- The per-dispatch record built inside the fan-out: on success
`{agent, prompt, status: 'SUCCESS', response}`, on a caught failure
`{agent, prompt, status: 'ERROR', error}`. -/
structure DispatchResult where
  agent : String
  prompt : String
  status : String
  response : Option String
  error : Option String

/-- The body mapped over `args.dispatches`: run the selected sub-agent
(abstracted by `exec`, which may fail) inside its own try/catch and tag the
outcome with its individual status. -/
def runDispatch (exec : Dispatch → Except String String) (d : Dispatch) :
    DispatchResult :=
  match exec d with
  | .ok output =>
      { agent := d.agent, prompt := d.prompt, status := "SUCCESS",
        response := some output, error := none }
  | .error e =>
      { agent := d.agent, prompt := d.prompt, status := "ERROR",
        response := none, error := some e }

/-- Join `await Promise.all(args.dispatches.map(...))`: the joined list of all
sub-dispatch outcomes, in dispatch order. -/
def parallelDispatch (exec : Dispatch → Except String String)
    (dispatches : List Dispatch) : List DispatchResult :=
  dispatches.map (runDispatch exec)

/-- A flat rendering of one outcome record (stands for its JSON.stringify
serialization). -/
def renderResult (r : DispatchResult) : String :=
  "(agent:" ++ r.agent ++ ",prompt:" ++ r.prompt ++ ",status:" ++ r.status ++
    ",response:" ++ (r.response.getD "") ++ ",error:" ++ (r.error.getD "") ++ ")"

/-- Rendering of the joined outcome list (stands for `JSON.stringify(results)`). -/
def renderResults (rs : List DispatchResult) : String :=
  "[" ++ String.intercalate "," (rs.map renderResult) ++ "]"

/-- The single aggregated function response the `parallel_dispatch` branch
returns to the provider (geminiService.ts lines 217-221). -/
def parallelDispatchResponse (exec : Dispatch → Except String String)
    (call : FunctionCall) (dispatches : List Dispatch) : FunctionResponseMsg :=
  { name := call.name,
    response := "Parallel Thread Batch: " ++ renderResults (parallelDispatch exec dispatches),
    id := call.id }

/-! ### Connection router: src/services/mcpClient.ts -/

/-- Connection status from src/types.ts: 'connected' | 'disconnected' | 'error'. -/
inductive ConnStatus where
  | connected
  | disconnected
  | error
deriving DecidableEq, Repr

instance : BEq ConnStatus := ⟨fun a b => decide (a = b)⟩

/-- Structure `McpTool` from src/types.ts (its input schema plays no role in routing). -/
structure McpTool where
  name : String
  description : Option String
deriving DecidableEq

/-- Structure `McpConnection` from src/types.ts; the transport object is abstracted
away (the `send` capability is passed to `callTool` directly). -/
structure McpConn where
  id : String
  tools : List McpTool
  status : ConnStatus
  error : Option String
deriving DecidableEq

/-- The `tools/call` request `callTool` builds (correlation id abstracted). -/
structure ToolCallRequest where
  method : String
  paramsName : String
  paramsArguments : String

/-- The linear scan of `callTool` (mcpClient.ts lines 154-161): the first
connection, in registration order, that is connected and whose cached
catalog contains a tool of the requested name. -/
def findToolConnection (connections : List McpConn) (name : String) :
    Option McpConn :=
  connections.find? (fun conn =>
    conn.status == ConnStatus.connected && conn.tools.any (fun t => t.name == name))

/-- Function `callTool` (mcpClient.ts lines 150-191).  `send` abstracts
`targetConn.transport.send` together with the result unwrapping that
follows it; no match throws the tool-not-found error. -/
def callTool (send : McpConn → ToolCallRequest → α)
    (connections : List McpConn) (name : String) (args : String) :
    Except String α :=
  match findToolConnection connections name with
  | none => .error ("Tool '" ++ name ++ "' not found in any active MCP connection.")
  | some targetConn =>
      .ok (send targetConn
        { method := "tools/call", paramsName := name, paramsArguments := args })

/-! ### Credential profiles: src/services/mcpRouter.ts -/

/-- Structure `McpProfile` from src/types.ts (the platform tag kept as a string). -/
structure McpProfile where
  id : String
  name : String
  key : String
  isActive : Bool
  platform : String
deriving DecidableEq

/-- The platform auto-detection inside `addProfile` (mcpRouter.ts lines
141-146): a key starting with "hf_" or "sk-" overrides a 'custom' or
'google' selection. -/
def detectPlatform (platform key : String) : String :=
  if platform == "custom" || platform == "google" then
    if key.trim.startsWith "hf_" then "huggingface"
    else if key.trim.startsWith "sk-" then "openai"
    else platform
  else platform

/-- Function `addProfile` (mcpRouter.ts lines 138-158); the fresh
`crypto.randomUUID()` is passed explicitly.  The new profile is active
exactly when the store was empty, and is pushed at the end.  Returns the
new profile list and the new profile. -/
def addProfile (profiles : List McpProfile) (newId name key platform : String) :
    List McpProfile × McpProfile :=
  let isFirst := profiles.length == 0
  let newProfile : McpProfile :=
    { id := newId, name := name, key := key, isActive := isFirst,
      platform := detectPlatform platform key }
  (profiles ++ [newProfile], newProfile)

/-- Function `removeProfile` (mcpRouter.ts lines 160-163). -/
def removeProfile (profiles : List McpProfile) (id : String) : List McpProfile :=
  profiles.filter (fun p => p.id != id)

/-- Function `setActiveProfile` (mcpRouter.ts lines 165-171): `p.isActive := p.id === id`,
where `id` may be `null` (then no id matches and all profiles deactivate). -/
def setActiveProfile (profiles : List McpProfile) (id : Option String) :
    List McpProfile :=
  profiles.map (fun p => { p with isActive := some p.id == id })

/-- The profile-store operations a caller can perform. -/
inductive ProfileOp where
  | add (newId name key platform : String)
  | remove (id : String)
  | setActive (id : Option String)

/-- One operation applied to the store. -/
def applyOp (profiles : List McpProfile) : ProfileOp → List McpProfile
  | .add newId name key platform => (addProfile profiles newId name key platform).1
  | .remove id => removeProfile profiles id
  | .setActive id => setActiveProfile profiles id

/-- A whole operation sequence run from a given store. -/
def runOps (profiles : List McpProfile) (ops : List ProfileOp) : List McpProfile :=
  ops.foldl applyOp profiles

/-- Every `add` in the sequence uses an id not already present at that
point (what `crypto.randomUUID()` provides in the source). -/
def freshIds (profiles : List McpProfile) : List ProfileOp → Bool
  | [] => true
  | op :: rest =>
      (match op with
       | .add newId _ _ _ => !(profiles.any (fun p => p.id == newId))
       | _ => true) && freshIds (applyOp profiles op) rest

/-- Number of active profiles in a store. -/
def countActive (profiles : List McpProfile) : Nat :=
  (profiles.filter (fun p => p.isActive)).length

/-! ### Concrete witness inputs and spec-side abbreviations -/

/-- A store of 201 distinct unpinned nodes, enough to trigger eviction. -/
def evictWitnessStore : List MemoryNode :=
  (List.range 201).map fun i =>
    { id := toString i, content := "", embedding := [], timestamp := i,
      type := "interaction", tags := [], relevance := 0, isPinned := false }

/-- An error that matches the rate-limit signature. -/
def rateLimitError : ApiError := { message := some "429", status := none }

/-- An error that does not match the rate-limit signature. -/
def fatalError : ApiError := { message := some "boom", status := none }

/-- A provider stub that always requests one tool call. -/
def stubResponse : AgentResponse :=
  { functionCalls := [{ name := "tool", args := "", id := "1" }], text := "stub" }

/-- Three concrete sub-dispatches for the fan-out witness. -/
def dispatchBatch : List Dispatch :=
  [{ agent := "RESEARCHER", prompt := "p1" },
   { agent := "DEVELOPER", prompt := "p2" },
   { agent := "DATA_ANALYST", prompt := "p3" }]

/-- A sub-agent executor that fails on the second dispatch only. -/
def execBatch : Dispatch → Except String String := fun d =>
  if d.prompt == "p2" then Except.error "boom" else Except.ok ("done " ++ d.prompt)

/-- Two connected connections both exposing a tool named "X"; registration
order `A` then `B`. -/
def connA : McpConn :=
  { id := "A", tools := [{ name := "X", description := none }],
    status := ConnStatus.connected, error := none }

/-- The later-registered connection with the colliding tool name. -/
def connB : McpConn :=
  { id := "B", tools := [{ name := "X", description := none }],
    status := ConnStatus.connected, error := none }

/-- Every stored node re-scored with its cosine similarity to the query. -/
noncomputable def scoredStore (q : List ℝ) (memories : List MemoryNode) :
    List MemoryNode :=
  memories.map (fun mem =>
    { mem with relevance := cosineSimilarity q mem.embedding })

/-- The scored nodes meeting the similarity threshold. -/
noncomputable def filteredStore (q : List ℝ) (memories : List MemoryNode)
    (minSimilarity : ℝ) : List MemoryNode :=
  (scoredStore q memories).filter (fun mem => decide (minSimilarity ≤ mem.relevance))

/-- A pinned node, present in a singleton store. -/
def pinnedNode : MemoryNode :=
  { id := "pin", content := "keep me", embedding := [1], timestamp := 0,
    type := "user_fact", tags := [], relevance := 0, isPinned := true }

/-- The ids of a profile store. -/
def idsOf (profiles : List McpProfile) : List String :=
  profiles.map (fun p => p.id)

/-- A saved active profile. -/
def profileOne : McpProfile :=
  { id := "1", name := "n1", key := "k1", isActive := true, platform := "anthropic" }

/-- A second, inactive saved profile. -/
def profileTwo : McpProfile :=
  { id := "2", name := "n2", key := "k2", isActive := false, platform := "anthropic" }

/-- The member of `setActiveProfile [profileOne, profileTwo] (some "2")`
that carries id "2". -/
def profileTwoActive : McpProfile :=
  { id := "2", name := "n2", key := "k2", isActive := true, platform := "anthropic" }

/-- A concrete operation sequence with fresh generated ids. -/
def opsWitness : List ProfileOp :=
  [ProfileOp.add "a" "n" "k" "anthropic",
   ProfileOp.add "b" "n" "k" "anthropic",
   ProfileOp.setActive (some "b"),
   ProfileOp.remove "a"]

/-! ### Helper lemmas about sums of squares -/

theorem sumSq_nonneg (l : List ℝ) : 0 ≤ (l.map (fun x => x * x)).sum := by
  apply List.sum_nonneg
  intro x hx
  obtain ⟨y, _, rfl⟩ := List.mem_map.mp hx
  exact mul_self_nonneg y

theorem sumSq_pos (l : List ℝ) (h : ∃ x ∈ l, x ≠ 0) :
    0 < (l.map (fun x => x * x)).sum := by
  induction l with
  | nil => simp at h
  | cons y t ih =>
      obtain ⟨x, hx, hxne⟩ := h
      rw [List.map_cons, List.sum_cons]
      rcases List.mem_cons.mp hx with rfl | hxt
      · have h1 : 0 < x * x :=
          lt_of_le_of_ne (mul_self_nonneg x) (Ne.symm (mul_self_ne_zero.mpr hxne))
        have h2 := sumSq_nonneg t
        linarith
      · have h1 : 0 < (t.map (fun x => x * x)).sum := ih ⟨x, hxt, hxne⟩
        have h2 : 0 ≤ y * y := mul_self_nonneg y
        linarith

theorem sumSq_eq_zero (l : List ℝ) (h : ∀ x ∈ l, x = 0) :
    (l.map (fun x => x * x)).sum = 0 := by
  apply List.sum_eq_zero
  intro x hx
  obtain ⟨y, hy, rfl⟩ := List.mem_map.mp hx
  rw [h y hy, mul_zero]

theorem zipWith_mul_self (l : List ℝ) :
    List.zipWith (fun a b => a * b) l l = l.map (fun x => x * x) := by
  induction l with
  | nil => rfl
  | cons y t ih => simp [List.zipWith_cons_cons, ih]

/-! ### C6: properties of cosine similarity -/

/-- C6.  The memory store's cosine similarity satisfies:
`sim(a,b) = sim(b,a)` for all vectors; `sim(a,a) = 1` for every non-zero
vector `a`; and `sim(a,b) = 0` whenever `a` or `b` is all-zero or their
lengths differ. -/
theorem cosineSimilarity_props (a b : List ℝ) :
    cosineSimilarity a b = cosineSimilarity b a ∧
    ((∃ x ∈ a, x ≠ 0) → cosineSimilarity a a = 1) ∧
    ((∀ x ∈ a, x = 0) → cosineSimilarity a b = 0) ∧
    ((∀ x ∈ b, x = 0) → cosineSimilarity a b = 0) ∧
    (a.length ≠ b.length → cosineSimilarity a b = 0) := by
  refine ⟨?_, ?_, ?_, ?_, ?_⟩
  · by_cases hl : a.length = b.length
    · rw [cosineSimilarity, cosineSimilarity, if_neg (not_not_intro hl),
        if_neg (not_not_intro hl.symm)]
      simp only [List.zipWith_comm_of_comm (fun x y : ℝ => x * y) mul_comm a b,
        mul_comm (Real.sqrt ((a.map (fun x => x * x)).sum))
          (Real.sqrt ((b.map (fun x => x * x)).sum))]
    · rw [cosineSimilarity, cosineSimilarity, if_pos hl,
        if_pos (fun hba => hl hba.symm)]
  · intro hnz
    have hpos : 0 < ((a.map (fun x => x * x)).sum) := sumSq_pos a hnz
    rw [cosineSimilarity, if_neg (not_not_intro rfl)]
    simp only [zipWith_mul_self]
    rw [Real.mul_self_sqrt hpos.le, if_neg hpos.ne', div_self hpos.ne']
  · intro hz
    by_cases hl : a.length = b.length
    · rw [cosineSimilarity, if_neg (not_not_intro hl)]
      simp only [sumSq_eq_zero a hz, Real.sqrt_zero, zero_mul, if_pos rfl, if_true]
    · rw [cosineSimilarity, if_pos hl]
  · intro hz
    by_cases hl : a.length = b.length
    · rw [cosineSimilarity, if_neg (not_not_intro hl)]
      simp only [sumSq_eq_zero b hz, Real.sqrt_zero, mul_zero, if_pos rfl, if_true]
    · rw [cosineSimilarity, if_pos hl]
  · intro hl
    rw [cosineSimilarity, if_pos hl]

/-- Witness for C6 at concrete vectors. -/
theorem cosineSimilarity_props_witness :
    cosineSimilarity [1, 2] [3, 4] = cosineSimilarity [3, 4] [1, 2] ∧
    cosineSimilarity [1, 0] [1, 0] = 1 ∧
    cosineSimilarity [0, 0] [3, 4] = 0 ∧
    cosineSimilarity [1] [1, 1] = 0 := by
  refine ⟨(cosineSimilarity_props [1, 2] [3, 4]).1,
    (cosineSimilarity_props [1, 0] [1, 0]).2.1 ⟨1, by simp, one_ne_zero⟩,
    (cosineSimilarity_props [0, 0] [3, 4]).2.2.1 ?_,
    (cosineSimilarity_props [1] [1, 1]).2.2.2.2 (by simp)⟩
  intro x hx
  rcases List.mem_cons.mp hx with rfl | hx
  · rfl
  · simpa using hx

/-! ### Helper lemmas about sorted splits -/

theorem byTimestampDesc_trans (a b c : MemoryNode) :
    byTimestampDesc a b = true → byTimestampDesc b c = true →
    byTimestampDesc a c = true := by
  simp only [byTimestampDesc, decide_eq_true_eq]
  omega

theorem byTimestampDesc_total (a b : MemoryNode) :
    (byTimestampDesc a b || byTimestampDesc b a) = true := by
  simp only [byTimestampDesc, Bool.or_eq_true, decide_eq_true_eq]
  omega

/-- In a mergeSort-sorted list, everything kept by `take k` is `le`-before
everything discarded by `drop k`. -/
theorem mergeSort_take_drop_le {α : Type} {le : α → α → Bool}
    (htrans : ∀ a b c, le a b = true → le b c = true → le a c = true)
    (htot : ∀ a b, (le a b || le b a) = true) (l : List α) (k : Nat) :
    ∀ u ∈ (l.mergeSort le).take k, ∀ d ∈ (l.mergeSort le).drop k,
      le u d = true := by
  have hs := List.sorted_mergeSort htrans htot l
  rw [← List.take_append_drop k (l.mergeSort le)] at hs
  exact (List.pairwise_append.mp hs).2.2

/-! ### C1: eviction invariant of `saveMemories` -/

/-- C1.  When eviction runs (the count exceeds `MAX_MEMORIES = 200`):
every node pinned before eviction is still present afterwards; the number
of retained unpinned nodes is at most `MAX_MEMORIES - pinnedCount` (Nat
subtraction, i.e. `max(0, C - pinnedCount)`); and the retained unpinned
nodes are the most recent ones — any unpinned node that was dropped has a
timestamp no later than any retained unpinned node. -/
theorem saveMemories_eviction (memories : List MemoryNode)
    (hover : MAX_MEMORIES < memories.length) :
    (∀ m ∈ memories, m.isPinned = true → m ∈ saveMemories memories) ∧
    ((saveMemories memories).filter (fun m => !m.isPinned)).length ≤
      MAX_MEMORIES - (memories.filter (fun m => m.isPinned)).length ∧
    (∀ u ∈ saveMemories memories, u.isPinned = false →
      ∀ d ∈ memories, d.isPinned = false → d ∉ saveMemories memories →
        d.timestamp ≤ u.timestamp) := by
  have hsave : saveMemories memories =
      ((memories.filter (fun m => m.isPinned)) ++
        (((memories.filter (fun m => !m.isPinned)).mergeSort byTimestampDesc).take
          (MAX_MEMORIES - (memories.filter (fun m => m.isPinned)).length))).mergeSort
        byTimestampDesc := by
    rw [saveMemories, if_pos hover]
  set pinnedL := memories.filter (fun m => m.isPinned) with hpinnedL
  set unpinnedL := memories.filter (fun m => !m.isPinned) with hunpinnedL
  set sortedU := unpinnedL.mergeSort byTimestampDesc with hsortedU
  set k := MAX_MEMORIES - pinnedL.length with hk
  set kept := sortedU.take k with hkept
  have hperm : (saveMemories memories).Perm (pinnedL ++ kept) := by
    rw [hsave]; exact List.mergeSort_perm _ _
  refine ⟨?_, ?_, ?_⟩
  · intro m hm hp
    apply hperm.mem_iff.mpr
    exact List.mem_append_left _ (List.mem_filter.mpr ⟨hm, hp⟩)
  · have hlen : ((saveMemories memories).filter (fun m => !m.isPinned)).length =
        ((pinnedL ++ kept).filter (fun m => !m.isPinned)).length :=
      (hperm.filter (fun m => !m.isPinned)).length_eq
    rw [hlen, List.filter_append]
    have h1 : pinnedL.filter (fun m => !m.isPinned) = [] := by
      rw [List.filter_eq_nil_iff]
      intro m hm
      simp [List.mem_filter.mp hm |>.2]
    have h2 : (kept.filter (fun m => !m.isPinned)).length ≤ kept.length :=
      List.length_filter_le _ _
    rw [h1, List.nil_append]
    calc (kept.filter (fun m => !m.isPinned)).length
        ≤ kept.length := h2
      _ ≤ k := by rw [hkept]; simp [List.length_take_le k sortedU]
  · intro u hu hup d hd hdp hdnot
    have hu2 : u ∈ pinnedL ++ kept := hperm.mem_iff.mp hu
    have huk : u ∈ kept := by
      rcases List.mem_append.mp hu2 with h | h
      · have := (List.mem_filter.mp h).2
        rw [hup] at this
        exact absurd this (by simp)
      · exact h
    have hds : d ∈ sortedU := by
      apply (List.mergeSort_perm unpinnedL byTimestampDesc).mem_iff.mpr
      exact List.mem_filter.mpr ⟨hd, by simp [hdp]⟩
    have hdd : d ∈ sortedU.drop k := by
      rcases List.mem_append.mp
          (by rw [List.take_append_drop k sortedU]; exact hds :
            d ∈ sortedU.take k ++ sortedU.drop k) with h | h
      · exact absurd (hperm.mem_iff.mpr (List.mem_append_right _ h)) hdnot
      · exact h
    have := mergeSort_take_drop_le byTimestampDesc_trans byTimestampDesc_total
      unpinnedL k u huk d hdd
    simpa [byTimestampDesc] using this

/-- Witness for C1: eviction actually runs on a 201-node store. -/
theorem saveMemories_eviction_witness :
    MAX_MEMORIES < evictWitnessStore.length ∧
    ((∀ m ∈ evictWitnessStore, m.isPinned = true → m ∈ saveMemories evictWitnessStore) ∧
    ((saveMemories evictWitnessStore).filter (fun m => !m.isPinned)).length ≤
      MAX_MEMORIES - (evictWitnessStore.filter (fun m => m.isPinned)).length ∧
    (∀ u ∈ saveMemories evictWitnessStore, u.isPinned = false →
      ∀ d ∈ evictWitnessStore, d.isPinned = false →
        d ∉ saveMemories evictWitnessStore → d.timestamp ≤ u.timestamp)) :=
  ⟨by simp [evictWitnessStore, MAX_MEMORIES],
   saveMemories_eviction evictWitnessStore
     (by simp [evictWitnessStore, MAX_MEMORIES])⟩

/-! ### C2: retry bound of `withRetry` -/

/-- If every attempt fails with a rate-limit error, the loop starting at
attempt `k` makes the remaining `maxRetries - k + 1` attempts and returns
the error of the last attempt. -/
theorem withRetryGo_rateLimited_all {α : Type} (fn : Nat → Except ApiError α)
    (maxRetries : Nat)
    (h : ∀ i, ∃ e, fn i = Except.error e ∧ isRateLimit e = true) :
    ∀ n k, maxRetries - k = n → k ≤ maxRetries →
      withRetryGo fn maxRetries k = (fn maxRetries, n + 1) := by
  intro n
  induction n with
  | zero =>
      intro k hn hk
      have hkeq : k = maxRetries := by omega
      subst hkeq
      obtain ⟨e, he, hrl⟩ := h k
      rw [withRetryGo, he]
      dsimp only
      rw [dif_neg (fun hc : isRateLimit e = true ∧ k < k => Nat.lt_irrefl k hc.2)]
  | succ n ih =>
      intro k hn hk
      have hklt : k < maxRetries := by omega
      obtain ⟨e, he, hrl⟩ := h k
      rw [withRetryGo, he]
      dsimp only
      rw [dif_pos ⟨hrl, hklt⟩, ih (k + 1) (by omega) (by omega)]

/-- C2.  With `maxRetries = 4` (the default): if every attempt fails with a
rate-limit signature, `withRetry` makes exactly `maxRetries + 1 = 5`
attempts in total and propagates the final error (the outcome of attempt
index 4); if the first attempt fails with a non-rate-limit error, exactly
one attempt is made and that error propagates immediately. -/
theorem withRetry_bounds {α : Type} (fn : Nat → Except ApiError α) :
    ((∀ i, ∃ e, fn i = Except.error e ∧ isRateLimit e = true) →
      withRetry fn = (fn 4, 5)) ∧
    (∀ e, fn 0 = Except.error e → isRateLimit e = false →
      withRetry fn = (Except.error e, 1)) := by
  constructor
  · intro h
    exact withRetryGo_rateLimited_all fn 4 h 4 0 rfl (by omega)
  · intro e he hrl
    rw [withRetry, withRetryGo, he]
    dsimp only
    rw [dif_neg (fun hc : isRateLimit e = true ∧ 0 < 4 => absurd hc.1 (by simp [hrl]))]

/-- Witness for C2 at two concrete failing calls. -/
theorem withRetry_bounds_witness :
    withRetry (fun _ => (Except.error rateLimitError : Except ApiError Unit)) =
      (Except.error rateLimitError, 5) ∧
    withRetry (fun _ => (Except.error fatalError : Except ApiError Unit)) =
      (Except.error fatalError, 1) :=
  ⟨(withRetry_bounds _).1 (fun _ => ⟨rateLimitError, rfl, by decide⟩),
   (withRetry_bounds _).2 fatalError rfl (by decide)⟩

/-! ### C3: turn bound of the orchestration loop -/

/-- The loop counter never exceeds `max t 6` when started at `t`. -/
theorem overseerLoop_turns_le (send : List FunctionResponseMsg → AgentResponse)
    (handleCall : FunctionCall → FunctionResponseMsg) :
    ∀ n t r, 6 - t = n →
      (overseerLoop send handleCall r t).2 ≤ max t 6 := by
  intro n
  induction n with
  | zero =>
      intro t r hn
      rw [overseerLoop, dif_neg (fun hc => by omega)]
      simp
  | succ n ih =>
      intro t r hn
      rw [overseerLoop]
      by_cases hc : 0 < r.functionCalls.length ∧ t < 6
      · rw [dif_pos hc]
        dsimp only
        have := ih (t + 1) (send (r.functionCalls.map handleCall)) (by omega)
        omega
      · rw [dif_neg hc]
        simp

/-- Started at turn `j` on the response reached after `j` iterations, a
provider that always requests calls drives the loop to exactly turn 6 and
the response produced by the 6th iteration. -/
theorem overseerLoop_exact (send : List FunctionResponseMsg → AgentResponse)
    (handleCall : FunctionCall → FunctionResponseMsg) (r : AgentResponse)
    (hsend : ∀ frs, 0 < (send frs).functionCalls.length)
    (hr : 0 < r.functionCalls.length) :
    ∀ n j, 6 - j = n → j ≤ 6 →
      overseerLoop send handleCall (respAt send handleCall r j) j =
        (respAt send handleCall r 6, 6) := by
  intro n
  induction n with
  | zero =>
      intro j hn hj
      have hj6 : j = 6 := by omega
      subst hj6
      rw [overseerLoop, dif_neg (fun hc => Nat.lt_irrefl 6 hc.2)]
  | succ n ih =>
      intro j hn hj
      have hjlt : j < 6 := by omega
      have hcalls : 0 < (respAt send handleCall r j).functionCalls.length := by
        cases j with
        | zero => exact hr
        | succ m => exact hsend _
      rw [overseerLoop, dif_pos ⟨hcalls, hjlt⟩]
      exact ih (j + 1) (by omega) (by omega)

/-- C3.  The orchestration loop of `runOverseerAgent` executes at most 6
tool-call turns for every provider behaviour; and for a provider stub that
always requests a tool call it performs exactly 6 turns and then returns
the last produced response (whose text is what the engine reports). -/
theorem overseer_turn_bound (send : List FunctionResponseMsg → AgentResponse)
    (handleCall : FunctionCall → FunctionResponseMsg) (r : AgentResponse) :
    (overseerLoop send handleCall r 0).2 ≤ 6 ∧
    ((∀ frs, 0 < (send frs).functionCalls.length) →
      0 < r.functionCalls.length →
      overseerLoop send handleCall r 0 = (respAt send handleCall r 6, 6)) := by
  constructor
  · simpa using overseerLoop_turns_le send handleCall 6 0 r rfl
  · intro hsend hr
    exact overseerLoop_exact send handleCall r hsend hr 6 0 rfl (by omega)

/-- Witness for C3: with the always-calling stub, the loop stops after
exactly 6 turns with the 6th response. -/
theorem overseer_turn_bound_witness :
    overseerLoop (fun _ => stubResponse) (fun c => ⟨c.name, "", c.id⟩)
        stubResponse 0 =
      (respAt (fun _ => stubResponse) (fun c => ⟨c.name, "", c.id⟩) stubResponse 6, 6) :=
  (overseer_turn_bound (fun _ => stubResponse) (fun c => ⟨c.name, "", c.id⟩)
      stubResponse).2
    (fun _ => by simp [stubResponse]) (by simp [stubResponse])

/-! ### C4: fan-out join of `parallel_dispatch` -/

/-- C4.  A `parallel_dispatch` call with N sub-dispatches joins all N: the
outcome list has exactly one entry per dispatch, in order; a successful
dispatch is tagged `SUCCESS` with its output, a failed one is tagged
`ERROR` with its captured error; and the whole list is folded into one
aggregated function response (the call's own name and id), so no
individual failure aborts the turn. -/
theorem parallelDispatch_join (exec : Dispatch → Except String String)
    (dispatches : List Dispatch) (call : FunctionCall) :
    (parallelDispatch exec dispatches).length = dispatches.length ∧
    (∀ i, i < dispatches.length →
      (parallelDispatch exec dispatches)[i]? =
        (dispatches[i]?).map (runDispatch exec)) ∧
    (∀ d output, exec d = Except.ok output → runDispatch exec d =
      { agent := d.agent, prompt := d.prompt, status := "SUCCESS",
        response := some output, error := none }) ∧
    (∀ d e, exec d = Except.error e → runDispatch exec d =
      { agent := d.agent, prompt := d.prompt, status := "ERROR",
        response := none, error := some e }) ∧
    parallelDispatchResponse exec call dispatches =
      { name := call.name,
        response := "Parallel Thread Batch: " ++
          renderResults (parallelDispatch exec dispatches),
        id := call.id } := by
  refine ⟨by simp [parallelDispatch], ?_, ?_, ?_, rfl⟩
  · intro i _
    simp [parallelDispatch, List.getElem?_map]
  · intro d output h
    simp [runDispatch, h]
  · intro d e h
    simp [runDispatch, h]

/-- Witness for C4: 3 dispatches, #2 fails, #1 and #3 succeed; all three
outcomes are present with their own status. -/
theorem parallelDispatch_join_witness :
    (parallelDispatch execBatch dispatchBatch).length = dispatchBatch.length ∧
    (parallelDispatch execBatch dispatchBatch)[1]? =
      (dispatchBatch[1]?).map (runDispatch execBatch) ∧
    runDispatch execBatch { agent := "RESEARCHER", prompt := "p1" } =
      { agent := "RESEARCHER", prompt := "p1", status := "SUCCESS",
        response := some "done p1", error := none } ∧
    runDispatch execBatch { agent := "DEVELOPER", prompt := "p2" } =
      { agent := "DEVELOPER", prompt := "p2", status := "ERROR",
        response := none, error := some "boom" } ∧
    runDispatch execBatch { agent := "DATA_ANALYST", prompt := "p3" } =
      { agent := "DATA_ANALYST", prompt := "p3", status := "SUCCESS",
        response := some "done p3", error := none } :=
  ⟨(parallelDispatch_join execBatch dispatchBatch ⟨"parallel_dispatch", "", "7"⟩).1,
   (parallelDispatch_join execBatch dispatchBatch ⟨"parallel_dispatch", "", "7"⟩).2.1 1
     (by simp [dispatchBatch]),
   (parallelDispatch_join execBatch dispatchBatch ⟨"parallel_dispatch", "", "7"⟩).2.2.1
     { agent := "RESEARCHER", prompt := "p1" } "done p1" rfl,
   (parallelDispatch_join execBatch dispatchBatch ⟨"parallel_dispatch", "", "7"⟩).2.2.2.1
     { agent := "DEVELOPER", prompt := "p2" } "boom" rfl,
   (parallelDispatch_join execBatch dispatchBatch ⟨"parallel_dispatch", "", "7"⟩).2.2.1
     { agent := "DATA_ANALYST", prompt := "p3" } "done p3" rfl⟩

/-! ### C5: first-match routing of `callTool` -/

/-- Helper: `find?` returns the head of the first segment element satisfying `p`
when everything before it fails `p`. -/
theorem find?_first {α : Type} {p : α → Bool} (pre : List α) (c : α)
    (post : List α) (hc : p c = true) (hpre : ∀ x ∈ pre, p x = false) :
    (pre ++ c :: post).find? p = some c := by
  induction pre with
  | nil => simp [List.find?_cons, hc]
  | cons y t ih =>
      have hy : p y = false := hpre y (List.mem_cons_self y t)
      simp only [List.cons_append, List.find?_cons, hy]
      exact ih (fun x hx => hpre x (List.mem_cons_of_mem y hx))

/-- The routing predicate of `callTool`, in propositional form. -/
theorem routingPred_iff (conn : McpConn) (name : String) :
    ((conn.status == ConnStatus.connected &&
        conn.tools.any (fun t => t.name == name)) = true) ↔
      (conn.status = ConnStatus.connected ∧ ∃ t ∈ conn.tools, t.name = name) := by
  constructor
  · intro h
    obtain ⟨h1, h2⟩ := Bool.and_eq_true_iff.mp h
    refine ⟨of_decide_eq_true h1, ?_⟩
    obtain ⟨t, ht, hname⟩ := List.any_eq_true.mp h2
    exact ⟨t, ht, by simpa using hname⟩
  · intro ⟨h1, t, ht, hname⟩
    apply Bool.and_eq_true_iff.mpr
    exact ⟨decide_eq_true h1, List.any_eq_true.mpr ⟨t, ht, by simp [hname]⟩⟩

/-- C5.  `callTool(name, args)` dispatches to the first connection, in
registration order, that is `connected` and whose cached catalog contains
a tool named `name`; when no connected connection's catalog contains the
name, it fails with the tool-not-found error.  (The model is a pure
function of the connection list, so repeated calls with an unchanged
connection map are deterministic by construction.) -/
theorem callTool_first_match {α : Type} (send : McpConn → ToolCallRequest → α)
    (connections : List McpConn) (name args : String) :
    ((∀ conn ∈ connections, ¬(conn.status = ConnStatus.connected ∧
        ∃ t ∈ conn.tools, t.name = name)) →
      callTool send connections name args =
        Except.error ("Tool '" ++ name ++ "' not found in any active MCP connection.")) ∧
    (∀ pre c post, connections = pre ++ c :: post →
      c.status = ConnStatus.connected →
      (∃ t ∈ c.tools, t.name = name) →
      (∀ conn ∈ pre, ¬(conn.status = ConnStatus.connected ∧
        ∃ t ∈ conn.tools, t.name = name)) →
      callTool send connections name args =
        Except.ok (send c
          { method := "tools/call", paramsName := name, paramsArguments := args })) := by
  constructor
  · intro h
    have hnone : findToolConnection connections name = none := by
      rw [findToolConnection, List.find?_eq_none]
      intro conn hconn hpred
      exact h conn hconn ((routingPred_iff conn name).mp hpred)
    rw [callTool, hnone]
  · intro pre c post hconns hstatus htool hpre
    have hsome : findToolConnection connections name = some c := by
      rw [findToolConnection, hconns]
      refine find?_first pre c post ((routingPred_iff c name).mpr ⟨hstatus, htool⟩) ?_
      intro x hx
      rw [Bool.eq_false_iff]
      intro hpred
      exact hpre x hx ((routingPred_iff x name).mp hpred)
    rw [callTool, hsome]

/-- Witness for C5: the call goes to the first-registered connection `A`,
and an unknown name fails with the tool-not-found error. -/
theorem callTool_first_match_witness :
    callTool (fun conn _ => conn.id) [connA, connB] "X" "" = Except.ok "A" ∧
    callTool (fun conn _ => conn.id) [connA, connB] "Y" "" =
      Except.error "Tool 'Y' not found in any active MCP connection." :=
  ⟨(callTool_first_match (fun conn _ => conn.id) [connA, connB] "X" "").2
      [] connA [connB] rfl rfl ⟨{ name := "X", description := none }, by simp [connA], rfl⟩
      (by simp),
   (callTool_first_match (fun conn _ => conn.id) [connA, connB] "Y" "").1
      (by decide)⟩

/-! ### C7: characterization of `search` -/

theorem byRelevanceDesc_trans (a b c : MemoryNode) :
    byRelevanceDesc a b = true → byRelevanceDesc b c = true →
    byRelevanceDesc a c = true := by
  simp only [byRelevanceDesc, decide_eq_true_eq]
  exact fun h1 h2 => le_trans h2 h1

theorem byRelevanceDesc_total (a b : MemoryNode) :
    (byRelevanceDesc a b || byRelevanceDesc b a) = true := by
  simp only [byRelevanceDesc, Bool.or_eq_true, decide_eq_true_eq]
  exact le_total _ _

/-- C7.  When the query embedding succeeds, `search` returns exactly the
stored nodes (re-scored with their similarity to the query) whose
similarity is at least `minSimilarity`, sorted descending by similarity
and truncated to the top `limit`: the result plus a remainder is a
permutation of the thresholded scored store, the result is sorted
descending, has length `min limit (filtered count)`, dominates everything
it cut off, and contains only scored nodes above the threshold.  On an
empty store the result is empty. -/
theorem search_spec (embedOutcome : EmbedOutcome) (memories : List MemoryNode)
    (limit : Nat) (minSimilarity : ℝ) (q : List ℝ)
    (hq : embedOutcome = Except.ok (some q)) :
    search embedOutcome [] limit minSimilarity = [] ∧
    ∃ rest : List MemoryNode,
      (search embedOutcome memories limit minSimilarity ++ rest).Perm
        (filteredStore q memories minSimilarity) ∧
      (search embedOutcome memories limit minSimilarity).Sorted
        (fun a b => b.relevance ≤ a.relevance) ∧
      (search embedOutcome memories limit minSimilarity).length =
        min limit (filteredStore q memories minSimilarity).length ∧
      (∀ u ∈ search embedOutcome memories limit minSimilarity,
        ∀ d ∈ rest, d.relevance ≤ u.relevance) ∧
      (∀ m ∈ search embedOutcome memories limit minSimilarity,
        minSimilarity ≤ m.relevance ∧ m ∈ scoredStore q memories) := by
  subst hq
  have hempty : search (Except.ok (some q)) [] limit minSimilarity = [] := by
    rw [search]
    rfl
  refine ⟨hempty, ?_⟩
  by_cases h0 : memories.length = 0
  · rw [List.length_eq_zero] at h0
    subst h0
    refine ⟨[], ?_, ?_, ?_, ?_, ?_⟩ <;>
      simp [hempty, filteredStore, scoredStore]
  · have hsearch : search (Except.ok (some q)) memories limit minSimilarity =
        ((filteredStore q memories minSimilarity).mergeSort byRelevanceDesc).take
          limit := by
      rw [search, if_neg h0]
      rfl
    set S := (filteredStore q memories minSimilarity).mergeSort byRelevanceDesc
      with hS
    have hperm : S.Perm (filteredStore q memories minSimilarity) :=
      List.mergeSort_perm _ _
    have hsorted : S.Pairwise (fun a b => byRelevanceDesc a b = true) :=
      List.sorted_mergeSort byRelevanceDesc_trans byRelevanceDesc_total _
    refine ⟨S.drop limit, ?_, ?_, ?_, ?_, ?_⟩
    · rw [hsearch, List.take_append_drop]
      exact hperm
    · rw [hsearch]
      exact ((hsorted.sublist (List.take_sublist limit S)).imp
        (fun h => of_decide_eq_true h))
    · rw [hsearch, List.length_take, hperm.length_eq]
    · intro u hu d hd
      rw [hsearch] at hu
      exact of_decide_eq_true
        (mergeSort_take_drop_le byRelevanceDesc_trans byRelevanceDesc_total
          (filteredStore q memories minSimilarity) limit u hu d hd)
    · intro m hm
      rw [hsearch] at hm
      have : m ∈ filteredStore q memories minSimilarity :=
        hperm.mem_iff.mp ((List.take_sublist limit S).mem hm)
      obtain ⟨hmem, hrel⟩ := List.mem_filter.mp this
      exact ⟨of_decide_eq_true hrel, hmem⟩

/-- Witness for C7: searching an empty store returns the empty list. -/
theorem search_spec_witness :
    search (Except.ok (some [1])) [] 5 ((6 : ℝ) / 10) = [] :=
  (search_spec (Except.ok (some [1])) [] 5 ((6 : ℝ) / 10) [1] rfl).1

/-! ### C8: embedding failure degrades to empty results -/

/-- C8.  If the embedding provider call fails (throws, or yields no
embedding), `addMemory` returns no node and leaves the stored collection
unchanged, and `search` returns the empty list.  Both model functions are
total: the failure is absorbed, never re-raised to the caller. -/
theorem embedFailure_degrades (embedOutcome : EmbedOutcome)
    (newId : String) (now : Nat) (memories : List MemoryNode)
    (content type : String) (tags : List String) (limit : Nat)
    (minSimilarity : ℝ)
    (hfail : ∀ v, embedOutcome ≠ Except.ok (some v)) :
    addMemory embedOutcome newId now memories content type tags =
      (none, memories) ∧
    search embedOutcome memories limit minSimilarity = [] := by
  match embedOutcome with
  | .error e =>
      refine ⟨rfl, ?_⟩
      rw [search]
      split <;> rfl
  | .ok none =>
      refine ⟨rfl, ?_⟩
      rw [search]
      split <;> rfl
  | .ok (some v) => exact absurd rfl (hfail v)

/-- Witness for C8 with a thrown embedding call. -/
theorem embedFailure_degrades_witness :
    addMemory (Except.error "embed down") "id1" 0 [] "c" "interaction" [] =
      (none, []) ∧
    search (Except.error "embed down") [] 5 ((6 : ℝ) / 10) = [] :=
  embedFailure_degrades (Except.error "embed down") "id1" 0 [] "c"
    "interaction" [] 5 ((6 : ℝ) / 10) (fun v => by simp)

/-! ### C9: `clear` wipes pinned nodes too (claim corrected) -/

/-- Counterexample to C9 as stated: `clear` drops a pinned node — the node
is pinned and present before `clear`, and absent afterwards. -/
theorem clear_drops_pinned_cex :
    pinnedNode ∈ [pinnedNode] ∧ pinnedNode.isPinned = true ∧
    pinnedNode ∉ clear [pinnedNode] :=
  ⟨List.mem_singleton_self pinnedNode, rfl, by simp [clear]⟩

/-- C9 (amended).  `clear()` performs a full wipe: it removes every node,
pinned ones included, leaving the store empty (the source comments weigh
keeping pinned nodes and explicitly choose the full wipe). -/
theorem clear_wipes_all (memories : List MemoryNode) :
    clear memories = [] ∧ getPinned (clear memories) = [] :=
  ⟨rfl, rfl⟩

/-! ### C10: at most one active credential profile -/

/-- With pairwise-distinct ids, at most one profile carries any given id. -/
theorem filter_id_length_le_one (profiles : List McpProfile) (s : String)
    (hnd : (idsOf profiles).Nodup) :
    (profiles.filter (fun p => p.id == s)).length ≤ 1 := by
  induction profiles with
  | nil => simp
  | cons p t ih =>
      rw [idsOf, List.map_cons, List.nodup_cons] at hnd
      by_cases hps : p.id = s
      · have hnone : t.filter (fun x => x.id == s) = [] := by
          rw [List.filter_eq_nil_iff]
          intro x hx hbeq
          have hxid : x.id = s := by simpa using hbeq
          apply hnd.1
          rw [hps, ← hxid]
          exact List.mem_map_of_mem (fun p => p.id) hx
        simp [List.filter_cons, hps, hnone]
      · rw [List.filter_cons, if_neg (by simpa using hps)]
        exact ih hnd.2

theorem addProfile_nodup (profiles : List McpProfile)
    (newId nm key pf : String) (hnd : (idsOf profiles).Nodup)
    (hfr : profiles.any (fun p => p.id == newId) = false) :
    (idsOf (addProfile profiles newId nm key pf).1).Nodup := by
  rw [addProfile]
  dsimp only
  rw [idsOf, List.map_append]
  refine List.Nodup.append hnd (List.nodup_singleton _) ?_
  rw [List.map_singleton, List.disjoint_singleton]
  intro hmem
  obtain ⟨p, hp, hpid⟩ := List.mem_map.mp hmem
  have := List.any_eq_false.mp hfr p hp
  simp [hpid] at this

theorem addProfile_count (profiles : List McpProfile)
    (newId nm key pf : String) (hca : countActive profiles ≤ 1) :
    countActive (addProfile profiles newId nm key pf).1 ≤ 1 := by
  rw [addProfile]
  dsimp only
  rw [countActive, List.filter_append, List.length_append]
  by_cases h0 : profiles.length = 0
  · rw [List.length_eq_zero] at h0
    subst h0
    simp
  · have hinactive : ((profiles.length == 0) : Bool) = false := by
      simpa using h0
    rw [List.filter_cons]
    simp only [hinactive, Bool.false_eq_true, if_false, List.filter_nil,
      List.length_nil]
    exact hca

theorem removeProfile_nodup (profiles : List McpProfile) (id : String)
    (hnd : (idsOf profiles).Nodup) :
    (idsOf (removeProfile profiles id)).Nodup := by
  rw [removeProfile, idsOf]
  exact List.Nodup.sublist
    (List.Sublist.map (fun p => p.id) (List.filter_sublist profiles)) hnd

theorem removeProfile_count (profiles : List McpProfile) (id : String)
    (hca : countActive profiles ≤ 1) :
    countActive (removeProfile profiles id) ≤ 1 :=
  le_trans
    (List.Sublist.length_le
      (List.Sublist.filter _ (List.filter_sublist profiles))) hca

theorem setActive_ids (profiles : List McpProfile) (id : Option String) :
    idsOf (setActiveProfile profiles id) = idsOf profiles := by
  rw [setActiveProfile, idsOf, idsOf, List.map_map]
  rfl

theorem setActive_count_none (profiles : List McpProfile) :
    countActive (setActiveProfile profiles none) = 0 := by
  rw [countActive, List.length_eq_zero, List.filter_eq_nil_iff]
  intro x hx
  rw [setActiveProfile] at hx
  obtain ⟨p, _, rfl⟩ := List.mem_map.mp hx
  simp

theorem setActive_count_some (profiles : List McpProfile) (s : String)
    (hnd : (idsOf profiles).Nodup) :
    countActive (setActiveProfile profiles (some s)) ≤ 1 := by
  rw [countActive, setActiveProfile, List.filter_map, List.length_map]
  have hpred : ((fun p : McpProfile => p.isActive) ∘
      (fun p : McpProfile => { p with isActive := some p.id == some s })) =
      fun p : McpProfile => p.id == s := by
    funext p
    show (some p.id == some s) = (p.id == s)
    by_cases h : p.id = s <;> simp [h]
  rw [hpred]
  exact filter_id_length_le_one profiles s hnd

/-- Running any valid operation sequence preserves distinct ids and the
at-most-one-active invariant. -/
theorem runOps_invariant (ops : List ProfileOp) :
    ∀ profiles, (idsOf profiles).Nodup → countActive profiles ≤ 1 →
      freshIds profiles ops = true →
      (idsOf (runOps profiles ops)).Nodup ∧
        countActive (runOps profiles ops) ≤ 1 := by
  induction ops with
  | nil => exact fun profiles hnd hca _ => ⟨hnd, hca⟩
  | cons op rest ih =>
      intro profiles hnd hca hfresh
      cases op with
      | add newId nm key pf =>
          have htwo : ((!(profiles.any (fun p => p.id == newId))) &&
              freshIds (applyOp profiles (ProfileOp.add newId nm key pf)) rest)
                = true := hfresh
          obtain ⟨h1, h2⟩ := Bool.and_eq_true_iff.mp htwo
          have hfr : profiles.any (fun p => p.id == newId) = false := by
            simpa using h1
          exact ih (applyOp profiles (ProfileOp.add newId nm key pf))
            (addProfile_nodup profiles newId nm key pf hnd hfr)
            (addProfile_count profiles newId nm key pf hca) h2
      | remove id =>
          have h2 : freshIds (applyOp profiles (ProfileOp.remove id)) rest
              = true := by
            have hone : (true && freshIds (applyOp profiles (ProfileOp.remove id))
                rest) = true := hfresh
            simpa using hone
          exact ih (applyOp profiles (ProfileOp.remove id))
            (removeProfile_nodup profiles id hnd)
            (removeProfile_count profiles id hca) h2
      | setActive id =>
          have h2 : freshIds (applyOp profiles (ProfileOp.setActive id)) rest
              = true := by
            have hone : (true && freshIds (applyOp profiles (ProfileOp.setActive id))
                rest) = true := hfresh
            simpa using hone
          cases id with
          | none =>
              refine ih (applyOp profiles (ProfileOp.setActive none)) ?_ ?_ h2
              · rw [applyOp, setActive_ids]
                exact hnd
              · rw [applyOp, setActive_count_none]
                omega
          | some s =>
              refine ih (applyOp profiles (ProfileOp.setActive (some s))) ?_ ?_ h2
              · rw [applyOp, setActive_ids]
                exact hnd
              · rw [applyOp]
                exact setActive_count_some profiles s hnd

/-- C10.  Profile-store behaviour: `addProfile` activates the new profile
exactly when the store was empty and appends it without touching existing
profiles; `setActiveProfile (some id)` makes exactly the profiles with
that id active; `setActiveProfile none` deactivates everything;
`removeProfile` keeps the other profiles (with their flags) unchanged; and
from the empty store, any operation sequence whose generated ids are fresh
leaves at most one profile active. -/
theorem profile_invariants (profiles : List McpProfile)
    (newId nm key pf s rid : String) (ops : List ProfileOp) :
    (addProfile profiles newId nm key pf).2.isActive = (profiles.length == 0) ∧
    (addProfile profiles newId nm key pf).1 =
      profiles ++ [(addProfile profiles newId nm key pf).2] ∧
    (∀ p ∈ setActiveProfile profiles (some s), (p.isActive = true ↔ p.id = s)) ∧
    (∀ p ∈ setActiveProfile profiles none, p.isActive = false) ∧
    (∀ p, p ∈ removeProfile profiles rid ↔ (p ∈ profiles ∧ p.id ≠ rid)) ∧
    (freshIds [] ops = true → countActive (runOps [] ops) ≤ 1) := by
  refine ⟨rfl, rfl, ?_, ?_, ?_, ?_⟩
  · intro p hp
    rw [setActiveProfile] at hp
    obtain ⟨p0, _, rfl⟩ := List.mem_map.mp hp
    show (some p0.id == some s) = true ↔ p0.id = s
    by_cases h : p0.id = s <;> simp [h]
  · intro p hp
    rw [setActiveProfile] at hp
    obtain ⟨p0, _, rfl⟩ := List.mem_map.mp hp
    simp
  · intro p
    rw [removeProfile, List.mem_filter]
    simp [bne_iff_ne]
  · intro hfresh
    exact (runOps_invariant ops [] (by simp [idsOf]) (by simp [countActive])
      hfresh).2

/-- Witness for C10 at concrete stores and operation sequences. -/
theorem profile_invariants_witness :
    (profileTwoActive.isActive = true ↔ profileTwoActive.id = "2") ∧
    (profileOne ∈ removeProfile [profileOne, profileTwo] "2" ↔
      (profileOne ∈ [profileOne, profileTwo] ∧ profileOne.id ≠ "2")) ∧
    countActive (runOps [] opsWitness) ≤ 1 :=
  ⟨(profile_invariants [profileOne, profileTwo] "x" "n" "k" "anthropic" "2" "2"
      opsWitness).2.2.1 profileTwoActive (by decide),
   (profile_invariants [profileOne, profileTwo] "x" "n" "k" "anthropic" "2" "2"
      opsWitness).2.2.2.2.1 profileOne,
   (profile_invariants [profileOne, profileTwo] "x" "n" "k" "anthropic" "2" "2"
      opsWitness).2.2.2.2.2 (by decide)⟩

end Prototype
